import Mathlib

/-! # Verification of `segmentation/compartments.py`

Shallow embedding of the compartment-segmentation module: an entropy-texture
stage followed by an adaptive-threshold contour sweep
(`segment_compartments_from_holes`), a z-stack driver (`segment_zstack`), and
a centroid clustering step (`cluster_by_centroid`).

Images are modelled as numpy arrays: a shape (list of dimension sizes)
together with a flat list of rational samples.  The library primitives of
skimage / sklearn / pandas that the module calls are modelled by their
documented contracts — concretely where their behaviour decides a property,
and as function parameters where only their interface matters.  Python
exceptions are modelled by `Except PyErr`: an uncaught exception propagates
through `bind`, exactly as an uncaught Python exception unwinds the caller.
-/

namespace CompSeg

/-- Error values raised by the modelled library primitives. -/
inductive PyErr where
  /-- numpy `ValueError` on a zero-size array (`np.min` of empty input); with
  `notTwoD` this is the malformed-image error family the spec calls
  `InvalidImageError`. -/
  | emptyImage : PyErr
  /-- skimage rank-filter `ValueError` on non-2-D input; also in the
  `InvalidImageError` family. -/
  | notTwoD : PyErr
  /-- failure of a threshold/label/contour primitive at one sweep offset. -/
  | threshFail : String → PyErr
  /-- sklearn `ValueError`: zero samples passed to `StandardScaler.fit_transform`. -/
  | emptySamples : PyErr
  /-- sklearn parameter validation: `eps` must be positive. -/
  | invalidEps : PyErr
  /-- sklearn parameter validation: `min_samples` must be at least 1. -/
  | invalidMinSamples : PyErr
  /-- pandas `ValueError`: column length mismatch in `DataFrame.assign`. -/
  | lengthMismatch : PyErr
deriving DecidableEq

/-- Model of a numpy `ndarray`: dimension sizes plus row-major flat data. -/
structure Img where
  shape : List ℕ
  data : List ℚ
deriving DecidableEq

/-- Model of a boolean `ndarray`. -/
structure BImg where
  shape : List ℕ
  data : List Bool
deriving DecidableEq

/-- A 2-D coordinate. -/
abbrev Point := ℚ × ℚ

/-- A contour as returned by `find_contours`: a list of `(row, col)` points. -/
abbrev Contour := List Point

/-- One record of the list built at lines 48-51 of the source:
`{'offset': offst, 'boundary': pol}`, the polygon kept as its vertex list. -/
structure Hyp where
  offset : ℕ
  boundary : List Point
deriving DecidableEq

/-- One row of the table assembled by `segment_zstack`. -/
structure ZRow where
  offset : ℕ
  boundary : List Point
  z : ℕ
deriving DecidableEq

/-- Whether an `Except` computation finished without raising. -/
def isOkB {ε α : Type} : Except ε α → Bool
  | .ok _ => true
  | .error _ => false

/-! ## The entropy-texture stage (lines 24-29) -/

/-- skimage `rescale_intensity(image, in_range='image', out_range=(omin, omax))`:
fails as numpy does when the image has no samples (`np.min` of a zero-size
array raises), otherwise clips to the input range and maps it affinely onto
`[omin, omax]` (clipping to the output range when the input range is
degenerate, as the library does). -/
def rescale_intensity (img : Img) (omin omax : ℚ) : Except PyErr Img :=
  match img.data with
  | [] => .error .emptyImage
  | v :: vs =>
    let imin := vs.foldl min v
    let imax := vs.foldl max v
    if imin = imax then
      .ok { img with data := img.data.map (fun x => min (max x omin) omax) }
    else
      .ok { img with
        data := img.data.map (fun x => (x - imin) / (imax - imin) * (omax - omin) + omin) }

/-- skimage `invert` on an unsigned image whose dtype maximum is `m`
(65535 for the `uint16` stage at line 25, 255 for the `uint8` stage at
line 29). -/
def invert (m : ℚ) (img : Img) : Img :=
  { img with data := img.data.map (fun v => m - v) }

/-- skimage `img_as_float` on `uint16` data: divide by 65535. -/
def img_as_float (img : Img) : Img :=
  { img with data := img.data.map (fun v => v / 65535) }

/-- numpy round-half-to-even, used by skimage when quantizing floats. -/
def rintQ (q : ℚ) : ℤ :=
  let f := Int.fdiv q.num q.den
  let r := q - (f : ℚ)
  if r < 1/2 then f
  else if 1/2 < r then f + 1
  else if f % 2 = 0 then f else f + 1

/-- skimage `img_as_ubyte` on float data in `[0, 1]`: scale by 255 and round. -/
def img_as_ubyte (img : Img) : Img :=
  { img with data := img.data.map (fun v => ((rintQ (v * 255) : ℤ) : ℚ)) }

/-- skimage `img_as_bool` on float data: a pixel maps to `True` exactly when
its value exceeds half the float dtype maximum, i.e. `image > 0.5`.  No other
input is consulted. -/
def img_as_bool (img : Img) : BImg :=
  { shape := img.shape, data := img.data.map (fun v => decide ((1 : ℚ)/2 < v)) }

/-- skimage `rank.entropy(data, disk(radius))`: the rank filters reject any
non-2-D image; the numerical output (irrational in general) is abstracted by
the parameter `ent`, constrained where needed to preserve the sample count as
the real filter does. -/
def entropy (ent : Img → ℕ → Img) (img : Img) (radius : ℕ) : Except PyErr Img :=
  if img.shape.length = 2 then .ok (ent img radius) else .error .notTwoD

/-- Lines 24-29: the entropy-texture stage of `segment_compartments_from_holes`
(the spec's `EntropyTextureMap.compute_texture`). -/
def compute_texture (ent : Img → ℕ → Img) (image : Img) : Except PyErr Img := do
  let data0 ← rescale_intensity image 0 65535
  let data1 := invert 65535 data0
  let data2 ← rescale_intensity (img_as_float data1) 0 1
  let data3 := img_as_ubyte data2
  let e1 ← entropy ent data3 30
  let e2 ← rescale_intensity e1 0 1
  let entr_img := img_as_ubyte e2
  return invert 255 entr_img

/-! ## The threshold sweep (lines 31-53) -/

/-- The skimage primitives called inside the sweep loop (lines 33-38),
modelled by their interfaces: each may fail (raise), in which case the
exception propagates through the caller exactly as in Python — the source
contains no handler. -/
structure Prims where
  threshold_local : Img → ℕ → ℕ → Except PyErr Img
  label : BImg → Except PyErr Img
  find_contours : Img → ℚ → Except PyErr (List Contour)

/-- `np.fliplr` on an N×2 contour array: swap `(row, col)` to `(col, row)`
(line 47). -/
def fliplr (c : Contour) : Contour := c.map (fun p => (p.2, p.1))

/-- Lines 33-51: the body of the sweep loop at one offset.  Note line 34: the
image that is binarized, labeled and contoured is `img_as_bool(local_thresh)`
— a function of the threshold map alone; the texture image is never compared
against the map. -/
def sweepBody (P : Prims) (entr_img : Img) (offst : ℕ) : Except PyErr (List Hyp) := do
  let local_thresh ← P.threshold_local entr_img 35 offst
  let binary_local := img_as_bool local_thresh
  let label_image ← P.label binary_local
  let contours ← P.find_contours label_image (9/10)
  return contours.foldl (fun acc contr =>
    if contr.length < 3 then acc
    else acc ++ [{ offset := offst, boundary := fliplr contr }]) []

/-- One iteration of the sweep accumulation (lines 32 and 48-51). -/
def sweepStep (P : Prims) (entr_img : Img) (acc : List Hyp) (offst : ℕ) :
    Except PyErr (List Hyp) := do
  let hs ← sweepBody P entr_img offst
  return acc ++ hs

/-- Lines 31-53: the threshold sweep over `np.arange(start=1, stop=300, step=1)`
applied to the texture image (the spec's `ThresholdSweepSegmenter.segment`). -/
def sweepSegment (P : Prims) (entr_img : Img) : Except PyErr (List Hyp) :=
  (List.range' 1 299).foldlM (sweepStep P entr_img) []

/-- The hypotheses one offset contributes (empty when that offset fails). -/
def bodyHyps (P : Prims) (entr_img : Img) (offst : ℕ) : List Hyp :=
  match sweepBody P entr_img offst with
  | .ok hs => hs
  | .error _ => []

/-- Lines 23-53: the whole segmentation function, texture stage then sweep. -/
def segment_compartments_from_holes (P : Prims) (ent : Img → ℕ → Img)
    (image : Img) : Except PyErr (List Hyp) := do
  let entr_img ← compute_texture ent image
  sweepSegment P entr_img

/-- Modelled from the spec: "Binarize the texture image against this local
threshold map" — a pixel is foreground exactly when its texture value passes
(exceeds) its per-pixel threshold.  Stated only for comparison with what
line 34 of the source computes. -/
def specBinarize (entr thresh : Img) : BImg :=
  { shape := entr.shape,
    data := (entr.data.zip thresh.data).map (fun p => decide (p.2 < p.1)) }

/-! ## The z-stack driver (lines 56-79) -/

/-- The record returned by `CachedImageFile.image`. -/
structure ImgMeta where
  z : ℕ
  channel : ℕ
  frame : ℕ
  image : Img

/-- The external image-indexing collaborator (`cached.CachedImageFile`),
exposing the enumerable z-indices, the coordinate lookup and the image
accessor used at lines 59-64. -/
structure CachedImageFile (ι : Type) where
  zstacks : List ℕ
  ix_at : ℕ → ℕ → ℕ → Option ι
  image : ι → ImgMeta
  cache_path : String

/-- Modelled from the spec: the external memoization collaborator
`cached_step` (module `cached`, not among the sources here) memoizes a pure
computation by key, so observably it returns `compute arg`. -/
def cached_step {α β : Type} (key : String) (compute : α → β) (arg : α)
    (cache_folder : String) : β :=
  compute arg

/-- Lines 59-78: the body of the z loop of `segment_zstack`.  The polygon
post-processing collaborators `simple_polygon` and `concentric` (module
`measurements`, not among the sources here) are parameters, constrained in the
theorems by the spec's contract for them. -/
def zbody {ι : Type} (P : Prims) (ent : Img → ℕ → Img)
    (simple_polygon concentric : List ZRow → List ZRow)
    (image_structure : CachedImageFile ι) (channel frame : ℕ)
    (out : List ZRow) (z : ℕ) : Except PyErr (List ZRow) :=
  match image_structure.ix_at channel z frame with
  | none => pure out
  | some ix =>
    let img_md := image_structure.image ix
    do
      let compartments ← cached_step
        ("z" ++ toString img_md.z ++ "c" ++ toString img_md.channel ++ "t"
          ++ toString img_md.frame ++ "-bags.obj")
        (segment_compartments_from_holes P ent) img_md.image
        image_structure.cache_path
      let df := compartments.map
        (fun h => ({ offset := h.offset, boundary := h.boundary, z := z } : ZRow))
      let df2 := concentric (simple_polygon df)
      pure (out ++ df2)

/-- Lines 56-79: `segment_zstack` (the spec's `ZStackDriver.segment_stack`);
`reset_index(drop=True)` is the identity on the list model. -/
def segment_zstack {ι : Type} (P : Prims) (ent : Img → ℕ → Img)
    (simple_polygon concentric : List ZRow → List ZRow)
    (image_structure : CachedImageFile ι) (channel frame : ℕ) :
    Except PyErr (List ZRow) :=
  image_structure.zstacks.foldlM
    (zbody P ent simple_polygon concentric image_structure channel frame) []

/-! ## Centroid clustering (lines 82-90) -/

/-- Squared Euclidean distance between centroid feature points. -/
def sqDist (p q : Point) : ℚ :=
  (p.1 - q.1) * (p.1 - q.1) + (p.2 - q.2) * (p.2 - q.2)

/-- sklearn DBSCAN neighborhood test: distance at most `eps`
(compared squared, which is exact for nonnegative `eps`). -/
def withinEps (eps : ℚ) (p q : Point) : Bool :=
  decide (sqDist p q ≤ eps * eps)

/-- Core-point mask: at least `min_samples` points (the point itself
included, per the sklearn convention) inside the `eps` neighborhood. -/
def coreMask (eps : ℚ) (ms : ℕ) (X : List Point) : List Bool :=
  X.map (fun p => decide (ms ≤ (X.filter (fun q => withinEps eps p q)).length))

/-- One round of minimum-representative propagation across `eps`-adjacent
core points. -/
def propagate (eps : ℚ) (X : List Point) (core : List Bool) (rep : List ℕ) :
    List ℕ :=
  (List.range X.length).map (fun i =>
    if core.getD i false then
      ((List.range X.length).filter (fun j =>
          core.getD j false && withinEps eps (X.getD i (0, 0)) (X.getD j (0, 0)))).foldl
        (fun m j => min m (rep.getD j i)) (rep.getD i i)
    else i)

/-- Iterated propagation; `X.length` rounds reach the fixpoint. -/
def repsAfter (eps : ℚ) (X : List Point) (core : List Bool) : ℕ → List ℕ
  | 0 => List.range X.length
  | n + 1 => propagate eps X core (repsAfter eps X core n)

/-- First-occurrence deduplication (cluster ids numbered by first core
point, matching the sklearn scan order). -/
def firstDedup (l : List ℕ) : List ℕ :=
  l.foldl (fun acc x => if x ∈ acc then acc else acc ++ [x]) []

/-- Deterministic model of `DBSCAN(...).fit(X).labels_`: clusters are the
connected components of core points under `eps` adjacency (ids numbered in
scan order), border points take the cluster of their first core neighbor,
and everything else is noise `-1`. -/
def dbscanLabels (eps : ℚ) (ms : ℕ) (X : List Point) : List ℤ :=
  let core := coreMask eps ms X
  let rep := repsAfter eps X core X.length
  let clusterReps := firstDedup
    (((List.range X.length).filter (fun i => core.getD i false)).map
      (fun i => rep.getD i i))
  (List.range X.length).map (fun i =>
    if core.getD i false then ((clusterReps.indexOf (rep.getD i i) : ℕ) : ℤ)
    else
      match ((List.range X.length).filter (fun j =>
          core.getD j false && withinEps eps (X.getD i (0, 0)) (X.getD j (0, 0)))).head? with
      | some j => ((clusterReps.indexOf (rep.getD j i) : ℕ) : ℤ)
      | none => -1)

/-- sklearn `StandardScaler().fit_transform`: rejects an empty sample set
("minimum of 1 sample required"); otherwise applies the zero-mean
unit-variance map, whose irrational scaling is abstracted by the parameter
`standardize`. -/
def StandardScaler_fit_transform (standardize : List Point → List Point)
    (X : List Point) : Except PyErr (List Point) :=
  if X.isEmpty then .error .emptySamples else .ok (standardize X)

/-- sklearn `DBSCAN(eps, min_samples).fit`: parameter validation first (a
positive `eps`, `min_samples` at least 1, `eps` checked first), then the
labeling. -/
def DBSCAN_fit (eps : ℚ) (min_samples : ℤ) (X : List Point) :
    Except PyErr (List ℤ) :=
  if eps ≤ 0 then .error .invalidEps
  else if min_samples < 1 then .error .invalidMinSamples
  else .ok (dbscanLabels eps min_samples.toNat X)

/-- One row of the pandas table handed to `cluster_by_centroid`: its
`boundary` polygon plus the remaining integer-valued columns by name. -/
structure PRow where
  boundary : List Point
  attrs : List (String × ℤ)
deriving DecidableEq

/-- pandas column assignment semantics: overwrite an existing column in
place, or append the new column at the end. -/
def setCol (attrs : List (String × ℤ)) (name : String) (v : ℤ) :
    List (String × ℤ) :=
  if attrs.any (fun p => p.1 = name) then
    attrs.map (fun p => if p.1 = name then (p.1, v) else p)
  else attrs ++ [(name, v)]

/-- pandas `df.assign(cluster=labels)`: fails on a length mismatch, otherwise
adds the per-row labels as the `cluster` column, preserving row order. -/
def assign (df : List PRow) (labels : List ℤ) : Except PyErr (List PRow) :=
  if labels.length = df.length then
    .ok ((df.zip labels).map
      (fun p => { p.1 with attrs := setCol p.1.attrs "cluster" p.2 }))
  else .error .lengthMismatch

/-- Lines 82-90: `cluster_by_centroid` (defaults `eps=0.01`,
`min_samples=10`).  The shapely centroid of a boundary (line 83) is
abstracted by the parameter `centroid`. -/
def cluster_by_centroid (centroid : List Point → Point)
    (standardize : List Point → List Point) (df : List PRow) (eps : ℚ)
    (min_samples : ℤ) : Except PyErr (List PRow) := do
  let X := df.map (fun r => centroid r.boundary)
  let Xs ← StandardScaler_fit_transform standardize X
  let labels ← DBSCAN_fit eps min_samples Xs
  assign df labels


/-! ## Concrete instances used to exercise the theorems -/

/-- A 1×1 texture image. -/
def e0 : Img := { shape := [1, 1], data := [0] }

/-- A triangular contour in `(row, col)` coordinates. -/
def triContour : Contour := [(0, 0), (0, 1), (1, 1)]

/-- A primitive set on which every sweep offset succeeds and finds one
triangular contour. -/
def P0 : Prims :=
  { threshold_local := fun _ _ _ => .ok { shape := [1, 1], data := [1] }
    label := fun _ => .ok { shape := [1, 1], data := [1] }
    find_contours := fun _ _ => .ok [triContour] }

/-- A primitive set whose `threshold_local` fails at offset 2 only. -/
def Pfail : Prims :=
  { P0 with threshold_local := fun _ _ o =>
      if o = 2 then .error (.threshFail "no valid threshold")
      else .ok { shape := [1, 1], data := [1] } }

/-- A primitive set whose `threshold_local` yields the 1×1 threshold map
`[-1]` on every input, as the real filter does on a 1×1 zero image at
offset 1 (the Gaussian local mean of the single pixel is the pixel itself,
minus the offset). -/
def Pdiv : Prims :=
  { P0 with threshold_local := fun _ _ _ => .ok { shape := [1, 1], data := [-1] } }

/-- The hypothesis list the sweep produces under `P0`: one triangle per
offset. -/
def l0 : List Hyp :=
  (List.range' 1 299).map
    (fun o => { offset := o, boundary := [(0, 0), (1, 0), (1, 1)] })

/-- A concrete entropy kernel (identity) satisfying the sample-count
contract of the real rank filter. -/
def entId : Img → ℕ → Img := fun g _ => g

/-- A five-slice stack in which only `z = 2` resolves to an image. -/
def S0 : CachedImageFile ℕ :=
  { zstacks := [0, 1, 2, 3, 4]
    ix_at := fun _ z _ => if z = 2 then some z else none
    image := fun _ => { z := 2, channel := 0, frame := 0, image := e0 }
    cache_path := "cache" }

/-- The table `segment_zstack` produces on `S0` under `P0`. -/
def zout0 : List ZRow :=
  (List.range' 1 299).map
    (fun o => { offset := o, boundary := [(0, 0), (1, 0), (1, 1)], z := 2 })

/-- A concrete centroid function. -/
def centroid0 : List Point → Point := fun _ => (0, 0)

/-- A one-row polygon table. -/
def df1 : List PRow :=
  [{ boundary := [(0, 0), (1, 0), (0, 1)], attrs := [("offset", 1), ("z", 2)] }]

/-- The clustering output on `df1`: the single centroid has fewer than
`min_samples = 10` neighbors, so it is noise. -/
def out1 : List PRow :=
  [{ boundary := [(0, 0), (1, 0), (0, 1)],
     attrs := [("offset", 1), ("z", 2), ("cluster", -1)] }]

end CompSeg

namespace CompSeg

/-! ## Helper lemmas -/

theorem exbind_ok {ε α β : Type} (a : α) (k : α → Except ε β) :
    (Except.ok a >>= k : Except ε β) = k a := rfl

theorem exbind_error {ε α β : Type} (e : ε) (k : α → Except ε β) :
    ((Except.error e : Except ε α) >>= k) = .error e := rfl

theorem hypFoldl_eq (o : ℕ) (cs : List Contour) (acc : List Hyp) :
    cs.foldl (fun acc2 contr =>
      if contr.length < 3 then acc2
      else acc2 ++ [{ offset := o, boundary := fliplr contr }]) acc
    = acc ++ (cs.filter (fun c => decide (3 ≤ c.length))).map
        (fun c => { offset := o, boundary := fliplr c }) := by
  induction cs generalizing acc with
  | nil => simp
  | cons c cs ih =>
    simp only [List.foldl_cons, List.filter_cons]
    by_cases h : c.length < 3
    · rw [if_pos h]
      have hd : decide (3 ≤ c.length) = false := by simp only [decide_eq_false_iff_not]; omega
      rw [hd, ih]
      simp
    · rw [if_neg h]
      have hd : decide (3 ≤ c.length) = true := by simp only [decide_eq_true_eq]; omega
      rw [hd, ih]
      simp

theorem expure {ε α : Type} (a : α) : (pure a : Except ε α) = .ok a := rfl

theorem sweepBody_ok (P : Prims) (e : Img) (o : ℕ) (t li : Img) (cs : List Contour)
    (h1 : P.threshold_local e 35 o = .ok t)
    (h2 : P.label (img_as_bool t) = .ok li)
    (h3 : P.find_contours li (9/10) = .ok cs) :
    sweepBody P e o = .ok ((cs.filter (fun c => decide (3 ≤ c.length))).map
      (fun c => { offset := o, boundary := fliplr c })) := by
  simp only [sweepBody, h1, h2, h3, exbind_ok]
  rw [hypFoldl_eq]
  simp [expure]

theorem sweepBody_ok_inv (P : Prims) (e : Img) (o : ℕ) (hs : List Hyp)
    (h : sweepBody P e o = .ok hs) :
    ∀ hy ∈ hs, hy.offset = o ∧ 3 ≤ hy.boundary.length := by
  simp only [sweepBody] at h
  cases h1 : P.threshold_local e 35 o with
  | error er => rw [h1, exbind_error] at h; cases h
  | ok t =>
    simp only [h1, exbind_ok] at h
    cases h2 : P.label (img_as_bool t) with
    | error er => rw [h2, exbind_error] at h; cases h
    | ok li =>
      simp only [h2, exbind_ok] at h
      cases h3 : P.find_contours li (9/10) with
      | error er => rw [h3, exbind_error] at h; cases h
      | ok cs =>
        simp only [h3, exbind_ok, expure] at h
        rw [hypFoldl_eq] at h
        have hsh : hs = (cs.filter (fun c => decide (3 ≤ c.length))).map
            (fun c => { offset := o, boundary := fliplr c }) := by
          have := Except.ok.inj h
          simpa using this.symm
        intro hy hmem
        rw [hsh] at hmem
        obtain ⟨c, hc, rfl⟩ := List.mem_map.mp hmem
        have hlen := List.of_mem_filter hc
        simp only [decide_eq_true_eq] at hlen
        refine ⟨rfl, ?_⟩
        simpa [fliplr] using hlen

theorem bodyHyps_offset (P : Prims) (e : Img) (o : ℕ) :
    ∀ hy ∈ bodyHyps P e o, hy.offset = o ∧ 3 ≤ hy.boundary.length := by
  unfold bodyHyps
  cases hb : sweepBody P e o with
  | error er => intro hy hmem; cases hmem
  | ok hs => exact sweepBody_ok_inv P e o hs hb

theorem sweepFold_ok (P : Prims) (e : Img) :
    ∀ (l : List ℕ) (acc res : List Hyp),
      l.foldlM (sweepStep P e) acc = .ok res →
      res = acc ++ (l.map (bodyHyps P e)).flatten ∧
        ∀ o ∈ l, isOkB (sweepBody P e o) = true := by
  intro l
  induction l with
  | nil =>
    intro acc res h
    have : acc = res := Except.ok.inj h
    simp [this.symm]
  | cons o os ih =>
    intro acc res h
    rw [List.foldlM_cons] at h
    cases hb : sweepBody P e o with
    | error er =>
      have hstep : sweepStep P e acc o = .error er := by
        unfold sweepStep
        rw [hb, exbind_error]
      rw [hstep, exbind_error] at h
      cases h
    | ok hs =>
      have hstep : sweepStep P e acc o = .ok (acc ++ hs) := by
        unfold sweepStep
        rw [hb, exbind_ok, expure]
      rw [hstep, exbind_ok] at h
      obtain ⟨hres, hall⟩ := ih (acc ++ hs) res h
      have hbody : bodyHyps P e o = hs := by unfold bodyHyps; rw [hb]
      constructor
      · rw [hres, List.map_cons, List.flatten_cons, hbody, List.append_assoc]
      · intro x hx
        cases hx with
        | head => simp [isOkB, hb]
        | tail _ hx2 => exact hall x hx2

theorem sweepFold_error (P : Prims) (e : Img) :
    ∀ (l1 : List ℕ) (o : ℕ) (l2 : List ℕ) (acc : List Hyp) (er : PyErr),
      (∀ x ∈ l1, isOkB (sweepBody P e x) = true) →
      sweepBody P e o = .error er →
      (l1 ++ o :: l2).foldlM (sweepStep P e) acc = .error er := by
  intro l1
  induction l1 with
  | nil =>
    intro o l2 acc er _ hfail
    rw [List.nil_append, List.foldlM_cons]
    have hstep : sweepStep P e acc o = .error er := by
      unfold sweepStep; rw [hfail, exbind_error]
    rw [hstep, exbind_error]
  | cons x xs ih =>
    intro o l2 acc er hok hfail
    rw [List.cons_append, List.foldlM_cons]
    have hx := hok x (List.mem_cons_self x xs)
    cases hb : sweepBody P e x with
    | error er2 => rw [hb] at hx; cases hx
    | ok hs =>
      have hstep : sweepStep P e acc x = .ok (acc ++ hs) := by
        unfold sweepStep; rw [hb, exbind_ok, expure]
      rw [hstep, exbind_ok]
      exact ih o l2 (acc ++ hs) er (fun y hy => hok y (List.mem_cons_of_mem x hy)) hfail

theorem rescale_intensity_ok (img : Img) (omin omax : ℚ) (h : img.data ≠ []) :
    ∃ out, rescale_intensity img omin omax = .ok out ∧ out.shape = img.shape ∧
      out.data.length = img.data.length := by
  cases hd : img.data with
  | nil => exact absurd hd h
  | cons v vs =>
    simp only [rescale_intensity, hd]
    by_cases hc : vs.foldl min v = vs.foldl max v
    · rw [if_pos hc]
      exact ⟨_, rfl, rfl, by simp⟩
    · rw [if_neg hc]
      exact ⟨_, rfl, rfl, by simp⟩

theorem zfold_inv {ι : Type} (P : Prims) (ent : Img → ℕ → Img)
    (sp cc : List ZRow → List ZRow)
    (hsp : ∀ t : List ZRow, ∀ r ∈ sp t, ∃ r0 ∈ t, r.z = r0.z)
    (hcc : ∀ t : List ZRow, ∀ r ∈ cc t, ∃ r0 ∈ t, r.z = r0.z)
    (s : CachedImageFile ι) (channel frame : ℕ) :
    ∀ (zl : List ℕ) (acc out : List ZRow),
      (∀ z ∈ zl, z ∈ s.zstacks) →
      (∀ r ∈ acc, (s.ix_at channel r.z frame).isSome = true ∧ r.z ∈ s.zstacks) →
      zl.foldlM (zbody P ent sp cc s channel frame) acc = .ok out →
      ∀ r ∈ out, (s.ix_at channel r.z frame).isSome = true ∧ r.z ∈ s.zstacks := by
  intro zl
  induction zl with
  | nil =>
    intro acc out _ hacc h
    have heq : acc = out := Except.ok.inj h
    rw [← heq]
    exact hacc
  | cons z zs ih =>
    intro acc out hsub hacc h
    rw [List.foldlM_cons] at h
    cases hix : s.ix_at channel z frame with
    | none =>
      have hb : zbody P ent sp cc s channel frame acc z = .ok acc := by
        unfold zbody
        rw [hix]
        rfl
      rw [hb, exbind_ok] at h
      exact ih acc out (fun y hy => hsub y (List.mem_cons_of_mem _ hy)) hacc h
    | some ix =>
      cases hseg : segment_compartments_from_holes P ent (s.image ix).image with
      | error er =>
        have hb : zbody P ent sp cc s channel frame acc z = .error er := by
          unfold zbody
          rw [hix]
          simp only [cached_step, hseg, exbind_error]
        rw [hb, exbind_error] at h
        cases h
      | ok comps =>
        have hb : zbody P ent sp cc s channel frame acc z = .ok (acc ++ cc (sp
            (comps.map (fun hh =>
              ({ offset := hh.offset, boundary := hh.boundary, z := z } : ZRow))))) := by
          unfold zbody
          rw [hix]
          simp only [cached_step, hseg, exbind_ok, expure]
        rw [hb, exbind_ok] at h
        refine ih _ out (fun y hy => hsub y (List.mem_cons_of_mem _ hy)) ?_ h
        intro r hr
        rcases List.mem_append.mp hr with hr1 | hr2
        · exact hacc r hr1
        · obtain ⟨r1, hr1m, hz1⟩ := hcc _ r hr2
          obtain ⟨r2, hr2m, hz2⟩ := hsp _ r1 hr1m
          obtain ⟨hh, hhm, rfl⟩ := List.mem_map.mp hr2m
          have hrz : r.z = z := by rw [hz1, hz2]
          rw [hrz]
          exact ⟨by rw [hix]; rfl, hsub z (List.mem_cons_self _ _)⟩

theorem dbscanLabels_length (eps : ℚ) (ms : ℕ) (X : List Point) :
    (dbscanLabels eps ms X).length = X.length := by
  unfold dbscanLabels
  rw [List.length_map, List.length_range]

theorem dbscanLabels_ge (eps : ℚ) (ms : ℕ) (X : List Point) :
    ∀ lb ∈ dbscanLabels eps ms X, -1 ≤ lb := by
  unfold dbscanLabels
  intro lb hm
  obtain ⟨i, _, rfl⟩ := List.mem_map.mp hm
  split
  · exact le_trans (by norm_num) (Int.natCast_nonneg _)
  · split
    · exact le_trans (by norm_num) (Int.natCast_nonneg _)
    · exact le_refl _

/-! ## The claims -/

/-- Claim C1 (refuted — code bug): the spec says the binary image that is
labeled and contoured is obtained by binarizing the texture image against the
adaptive local threshold map.  Line 34 instead computes
`img_as_bool(local_thresh)`: the sweep body is a function of the threshold map
alone — two different texture images with the same threshold map give
identical results — and on the concrete 1×1 threshold map `[-1]` (the real
filter's output for texture pixel 0 at offset 1) the code's binarization
gives all-background while the spec's texture-against-map binarization gives
foreground. -/
theorem binary_local_ignores_texture (P : Prims) (e1 e2 : Img) (o : ℕ) (t : Img)
    (h1 : P.threshold_local e1 35 o = .ok t)
    (h2 : P.threshold_local e2 35 o = .ok t) :
    sweepBody P e1 o = sweepBody P e2 o ∧
    img_as_bool { shape := [1,1], data := [-1] } = { shape := [1,1], data := [false] } ∧
    specBinarize { shape := [1,1], data := [0] } { shape := [1,1], data := [-1] }
      = { shape := [1,1], data := [true] } := by
  refine ⟨?_, by with_unfolding_all rfl, by with_unfolding_all rfl⟩
  simp only [sweepBody, h1, h2]

/-- Witness for `binary_local_ignores_texture` at concrete inputs. -/
theorem binary_local_ignores_texture_witness :
    Pdiv.threshold_local { shape := [1,1], data := [0] } 35 1
      = .ok { shape := [1,1], data := [-1] } ∧
    sweepBody Pdiv { shape := [1,1], data := [0] } 1
      = sweepBody Pdiv { shape := [1,1], data := [9] } 1 :=
  ⟨rfl, (binary_local_ignores_texture Pdiv { shape := [1,1], data := [0] }
    { shape := [1,1], data := [9] } 1 { shape := [1,1], data := [-1] } rfl rfl).1⟩

/-- Claim C2 counterexample: under a primitive set whose `threshold_local`
fails only at offset 2, offset 1 succeeds and contributes a hypothesis, yet
the whole segmentation returns the error — the segmenter does not skip the
failing offset and does not return the hypotheses of the non-failing
offsets. -/
theorem sweep_failure_loses_good_offsets :
    isOkB (sweepBody Pfail e0 1) = true ∧
    bodyHyps Pfail e0 1 = [{ offset := 1, boundary := [(0,0),(1,0),(1,1)] }] ∧
    sweepSegment Pfail e0 = .error (PyErr.threshFail "no valid threshold") :=
  ⟨by with_unfolding_all rfl, by with_unfolding_all rfl, by with_unfolding_all rfl⟩

/-- Claim C2 (amended): the sweep loop of `segment_compartments_from_holes`
has no exception handler, so the first offset at which a threshold/label/
contour primitive fails aborts the whole segmentation with that error; no
offset is skipped and no hypotheses are returned. -/
theorem sweep_aborts_on_first_failure (P : Prims) (entr : Img) (l1 l2 : List ℕ)
    (o : ℕ) (er : PyErr)
    (hsplit : List.range' 1 299 = l1 ++ o :: l2)
    (hok : ∀ x ∈ l1, isOkB (sweepBody P entr x) = true)
    (hfail : sweepBody P entr o = .error er) :
    sweepSegment P entr = .error er := by
  unfold sweepSegment
  rw [hsplit]
  exact sweepFold_error P entr l1 o l2 [] er hok hfail

/-- Witness for `sweep_aborts_on_first_failure` at concrete inputs. -/
theorem sweep_aborts_on_first_failure_witness :
    sweepBody Pfail e0 2 = .error (PyErr.threshFail "no valid threshold") ∧
    sweepSegment Pfail e0 = .error (PyErr.threshFail "no valid threshold") := by
  have hsplit : List.range' 1 299 = [1] ++ 2 :: List.range' 3 297 := rfl
  have hfail : sweepBody Pfail e0 2 = .error (PyErr.threshFail "no valid threshold") := by
    with_unfolding_all rfl
  refine ⟨hfail, sweep_aborts_on_first_failure Pfail e0 [1] (List.range' 3 297) 2 _ hsplit ?_ hfail⟩
  intro x hx
  rw [List.mem_singleton] at hx
  subst hx
  with_unfolding_all rfl

/-- Claim C3: a successful sweep iterates exactly the 299 integer offsets of
`np.arange(start=1, stop=300)`, returns the concatenation of the per-offset
hypothesis lists in order — no deduplication or merging — tags every
hypothesis with the offset that produced it, and every returned offset lies
in `[1, 299]`. -/
theorem sweep_offsets_exact (P : Prims) (entr : Img) (l : List Hyp)
    (h : sweepSegment P entr = .ok l) :
    (List.range' 1 299).length = 299 ∧
    l = ((List.range' 1 299).map (bodyHyps P entr)).flatten ∧
    (∀ o : ℕ, ∀ hy ∈ bodyHyps P entr o, hy.offset = o) ∧
    ∀ hy ∈ l, 1 ≤ hy.offset ∧ hy.offset ≤ 299 := by
  unfold sweepSegment at h
  obtain ⟨hres, -⟩ := sweepFold_ok P entr (List.range' 1 299) [] l h
  rw [List.nil_append] at hres
  refine ⟨by simp, hres, fun o hy hm => (bodyHyps_offset P entr o hy hm).1, ?_⟩
  intro hy hm
  rw [hres, List.mem_flatten] at hm
  obtain ⟨sl, hs, hmem⟩ := hm
  obtain ⟨o, ho, rfl⟩ := List.mem_map.mp hs
  have heq := (bodyHyps_offset P entr o hy hmem).1
  rw [heq]
  have hr := List.mem_range'_1.mp ho
  omega

set_option maxRecDepth 10000 in
/-- Witness for `sweep_offsets_exact` at concrete inputs. -/
theorem sweep_offsets_exact_witness :
    sweepSegment P0 e0 = .ok l0 ∧
    ((List.range' 1 299).length = 299 ∧
     l0 = ((List.range' 1 299).map (bodyHyps P0 e0)).flatten ∧
     (∀ o : ℕ, ∀ hy ∈ bodyHyps P0 e0 o, hy.offset = o) ∧
     ∀ hy ∈ l0, 1 ≤ hy.offset ∧ hy.offset ≤ 299) := by
  have h : sweepSegment P0 e0 = .ok l0 := by with_unfolding_all rfl
  exact ⟨h, sweep_offsets_exact P0 e0 l0 h⟩

/-- Claim C4: at any offset whose primitives succeed, the appended records
are exactly one per extracted contour with at least 3 vertices — shorter
contours are silently dropped (no record, no error) — and every hypothesis
of a successful sweep has a boundary with at least 3 vertices. -/
theorem sweep_min_vertices (P : Prims) (entr : Img) (o : ℕ) (t li : Img)
    (cs : List Contour) (l : List Hyp)
    (h1 : P.threshold_local entr 35 o = .ok t)
    (h2 : P.label (img_as_bool t) = .ok li)
    (h3 : P.find_contours li (9/10) = .ok cs)
    (h4 : sweepSegment P entr = .ok l) :
    sweepBody P entr o = .ok ((cs.filter (fun c => decide (3 ≤ c.length))).map
      (fun c => { offset := o, boundary := fliplr c })) ∧
    ∀ hy ∈ l, 3 ≤ hy.boundary.length := by
  refine ⟨sweepBody_ok P entr o t li cs h1 h2 h3, ?_⟩
  unfold sweepSegment at h4
  obtain ⟨hres, -⟩ := sweepFold_ok P entr (List.range' 1 299) [] l h4
  intro hy hm
  rw [hres, List.nil_append, List.mem_flatten] at hm
  obtain ⟨sl, hs, hmem⟩ := hm
  obtain ⟨o2, ho2, rfl⟩ := List.mem_map.mp hs
  exact (bodyHyps_offset P entr o2 hy hmem).2

set_option maxRecDepth 10000 in
/-- Witness for `sweep_min_vertices` at concrete inputs. -/
theorem sweep_min_vertices_witness :
    sweepBody P0 e0 1 = .ok [{ offset := 1, boundary := [(0,0),(1,0),(1,1)] }] ∧
    ∀ hy ∈ l0, 3 ≤ hy.boundary.length := by
  have h : sweepSegment P0 e0 = .ok l0 := by with_unfolding_all rfl
  have hh := sweep_min_vertices P0 e0 1 { shape := [1,1], data := [1] }
    { shape := [1,1], data := [1] } [triContour] l0 rfl rfl rfl h
  exact ⟨hh.1.trans (by with_unfolding_all rfl), hh.2⟩

/-- Claim C5 counterexample: on the empty table with `eps = 0` the failure
is the standardization's empty-sample error, not a parameter-validation
error, so the claim's "for every input table" is too strong. -/
theorem cluster_param_check_not_first :
    cluster_by_centroid (fun _ => (0, 0)) (fun X => X) [] 0 10 = .error .emptySamples ∧
    PyErr.emptySamples ≠ PyErr.invalidEps ∧
    PyErr.emptySamples ≠ PyErr.invalidMinSamples :=
  ⟨rfl, by decide, by decide⟩

/-- Claim C5 (amended): for every non-empty table, `eps ≤ 0` or
`min_samples < 1` makes `cluster_by_centroid` fail with the sklearn
parameter-validation error (`eps` checked first) and produce no partial
result — in particular no cluster column is added.  On an empty table the
standardization's empty-sample error fires first (see the
counterexample). -/
theorem cluster_invalid_params (centroid : List Point → Point)
    (standardize : List Point → List Point) (df : List PRow) (eps : ℚ) (ms : ℤ)
    (hne : df ≠ []) (hbad : eps ≤ 0 ∨ ms < 1) :
    cluster_by_centroid centroid standardize df eps ms =
      .error (if eps ≤ 0 then PyErr.invalidEps else PyErr.invalidMinSamples) := by
  have hS : StandardScaler_fit_transform standardize (df.map fun r => centroid r.boundary)
      = .ok (standardize (df.map fun r => centroid r.boundary)) := by
    unfold StandardScaler_fit_transform
    rw [if_neg]
    intro hcon
    rw [List.isEmpty_iff] at hcon
    exact hne (List.map_eq_nil_iff.mp hcon)
  simp only [cluster_by_centroid, hS, exbind_ok]
  unfold DBSCAN_fit
  by_cases he : eps ≤ 0
  · rw [if_pos he, if_pos he, exbind_error]
  · rw [if_neg he, if_neg he]
    have hm : ms < 1 := hbad.resolve_left he
    rw [if_pos hm, exbind_error]

/-- Witness for `cluster_invalid_params` at concrete inputs. -/
theorem cluster_invalid_params_witness :
    df1 ≠ [] ∧
    cluster_by_centroid centroid0 (fun X => X) df1 0 10 = .error PyErr.invalidEps := by
  have hne : df1 ≠ [] := by simp [df1]
  have hh := cluster_invalid_params centroid0 (fun X => X) df1 0 10 hne (Or.inl le_rfl)
  rw [if_pos le_rfl] at hh
  exact ⟨hne, hh⟩

/-- Claim C6: the entropy-texture stage fails exactly on malformed input —
the numpy zero-size-array error when the image has no samples, the
rank-filter error when the shape is not 2-D (together the spec's
`InvalidImageError` family) — and completes without error on every
well-formed 2-D non-empty image. -/
theorem texture_error_conditions (ent : Img → ℕ → Img)
    (Hent : ∀ g r, (ent g r).data.length = g.data.length) (img : Img) :
    (img.data ≠ [] ∧ img.shape.length = 2 → isOkB (compute_texture ent img) = true) ∧
    (img.data = [] → compute_texture ent img = .error .emptyImage) ∧
    (img.data ≠ [] ∧ img.shape.length ≠ 2 → compute_texture ent img = .error .notTwoD) := by
  refine ⟨?_, ?_, ?_⟩
  · rintro ⟨hne, h2⟩
    obtain ⟨o1, ho1, hsh1, hlen1⟩ := rescale_intensity_ok img 0 65535 hne
    have hne2 : (img_as_float (invert 65535 o1)).data ≠ [] := by
      intro hcon
      have : (img_as_float (invert 65535 o1)).data.length = 0 := by rw [hcon]; rfl
      simp only [img_as_float, invert, List.length_map] at this
      rw [hlen1] at this
      exact hne (List.length_eq_zero.mp this)
    obtain ⟨o2, ho2, hsh2, hlen2⟩ := rescale_intensity_ok (img_as_float (invert 65535 o1)) 0 1 hne2
    have hshape : (img_as_ubyte o2).shape = img.shape := by
      simp only [img_as_ubyte]
      rw [hsh2]
      simp only [img_as_float, invert]
      exact hsh1
    have hent : entropy ent (img_as_ubyte o2) 30 = .ok (ent (img_as_ubyte o2) 30) := by
      unfold entropy
      rw [if_pos (by rw [hshape]; exact h2)]
    have hne3 : (ent (img_as_ubyte o2) 30).data ≠ [] := by
      intro hcon
      have h0 : (ent (img_as_ubyte o2) 30).data.length = 0 := by rw [hcon]; rfl
      rw [Hent] at h0
      simp only [img_as_ubyte, List.length_map] at h0
      rw [hlen2] at h0
      simp only [img_as_float, invert, List.length_map] at h0
      rw [hlen1] at h0
      exact hne (List.length_eq_zero.mp h0)
    obtain ⟨o3, ho3, hsh3, hlen3⟩ := rescale_intensity_ok (ent (img_as_ubyte o2) 30) 0 1 hne3
    simp only [compute_texture, ho1, exbind_ok, ho2, hent, ho3, expure]
    rfl
  · intro hd
    have h1 : rescale_intensity img 0 65535 = .error .emptyImage := by
      simp only [rescale_intensity, hd]
    simp only [compute_texture, h1, exbind_error]
  · rintro ⟨hne, h2⟩
    obtain ⟨o1, ho1, hsh1, hlen1⟩ := rescale_intensity_ok img 0 65535 hne
    have hne2 : (img_as_float (invert 65535 o1)).data ≠ [] := by
      intro hcon
      have : (img_as_float (invert 65535 o1)).data.length = 0 := by rw [hcon]; rfl
      simp only [img_as_float, invert, List.length_map] at this
      rw [hlen1] at this
      exact hne (List.length_eq_zero.mp this)
    obtain ⟨o2, ho2, hsh2, hlen2⟩ := rescale_intensity_ok (img_as_float (invert 65535 o1)) 0 1 hne2
    have hshape : (img_as_ubyte o2).shape = img.shape := by
      simp only [img_as_ubyte]
      rw [hsh2]
      simp only [img_as_float, invert]
      exact hsh1
    have hent : entropy ent (img_as_ubyte o2) 30 = .error .notTwoD := by
      unfold entropy
      rw [if_neg (by rw [hshape]; exact h2)]
    simp only [compute_texture, ho1, exbind_ok, ho2, hent, exbind_error]

/-- Witness for `texture_error_conditions` at concrete inputs. -/
theorem texture_error_conditions_witness :
    isOkB (compute_texture entId e0) = true ∧
    compute_texture entId { shape := [1, 1], data := [] } = .error .emptyImage ∧
    compute_texture entId { shape := [1, 1, 1], data := [0] } = .error .notTwoD := by
  have Hent : ∀ (g : Img) (r : ℕ), (entId g r).data.length = g.data.length := fun g r => rfl
  refine ⟨(texture_error_conditions entId Hent e0).1 ⟨by simp [e0], rfl⟩,
    (texture_error_conditions entId Hent _).2.1 rfl,
    (texture_error_conditions entId Hent _).2.2 ⟨by simp, by simp⟩⟩

/-- Claim C7: every z-index whose `(channel, z, frame)` lookup yields no
image is skipped without error, and every row of a successfully returned
z-stack table carries a `z` for which an image existed (the lookup is
`some`) and which is one of the declared z-indices. -/
theorem zstack_z_only_existing {ι : Type} (P : Prims) (ent : Img → ℕ → Img)
    (sp cc : List ZRow → List ZRow)
    (hsp : ∀ t : List ZRow, ∀ r ∈ sp t, ∃ r0 ∈ t, r.z = r0.z)
    (hcc : ∀ t : List ZRow, ∀ r ∈ cc t, ∃ r0 ∈ t, r.z = r0.z)
    (s : CachedImageFile ι) (channel frame : ℕ) (out : List ZRow)
    (h : segment_zstack P ent sp cc s channel frame = .ok out) :
    ∀ r ∈ out, (s.ix_at channel r.z frame).isSome = true ∧ r.z ∈ s.zstacks := by
  unfold segment_zstack at h
  exact zfold_inv P ent sp cc hsp hcc s channel frame s.zstacks [] out
    (fun z hz => hz) (fun r hr => absurd hr (List.not_mem_nil r)) h

set_option maxRecDepth 10000 in
/-- Witness for `zstack_z_only_existing` at concrete inputs. -/
theorem zstack_z_only_existing_witness :
    segment_zstack P0 entId id id S0 0 0 = .ok zout0 ∧
    ∀ r ∈ zout0, (S0.ix_at 0 r.z 0).isSome = true ∧ r.z ∈ S0.zstacks := by
  have h : segment_zstack P0 entId id id S0 0 0 = .ok zout0 := by
    with_unfolding_all rfl
  exact ⟨h, zstack_z_only_existing P0 entId id id
    (fun t r hr => ⟨r, hr, rfl⟩) (fun t r hr => ⟨r, hr, rfl⟩) S0 0 0 zout0 h⟩

/-- Claim C8: the threshold sweep is deterministic — run on identical
texture images it returns identical hypothesis lists, hence identical
order-insensitive sets of records. -/
theorem sweep_deterministic (P : Prims) (e1 e2 : Img) (h : e1 = e2) :
    sweepSegment P e1 = sweepSegment P e2 := by rw [h]

/-- Witness for `sweep_deterministic` at concrete inputs. -/
theorem sweep_deterministic_witness :
    sweepSegment P0 e0 = sweepSegment P0 e0 :=
  sweep_deterministic P0 e0 e0 rfl

/-- Claim C9: when clustering succeeds on a table without a pre-existing
cluster column, the result has the same number of rows in the same order,
each row keeps its boundary and every pre-existing column value unchanged,
and gains exactly one new column named `cluster` whose value is an integer
label equal to `-1` (noise) or a nonnegative cluster id. -/
theorem cluster_frame_effect (centroid : List Point → Point)
    (standardize : List Point → List Point) (df out : List PRow) (eps : ℚ) (ms : ℤ)
    (hstd : ∀ X, (standardize X).length = X.length)
    (hnc : ∀ r ∈ df, ∀ p ∈ r.attrs, p.1 ≠ "cluster")
    (h : cluster_by_centroid centroid standardize df eps ms = .ok out) :
    out.length = df.length ∧
    ∀ i (hi : i < out.length) (hj : i < df.length),
      out[i].boundary = df[i].boundary ∧
      out[i].attrs.map Prod.fst = df[i].attrs.map Prod.fst ++ ["cluster"] ∧
      out[i].attrs.take df[i].attrs.length = df[i].attrs ∧
      ∀ q ∈ out[i].attrs, q.1 = "cluster" → -1 ≤ q.2 := by
  simp only [cluster_by_centroid] at h
  cases hS : StandardScaler_fit_transform standardize (df.map fun r => centroid r.boundary) with
  | error er => rw [hS, exbind_error] at h; cases h
  | ok Xs =>
    rw [hS, exbind_ok] at h
    cases hD : DBSCAN_fit eps ms Xs with
    | error er => rw [hD, exbind_error] at h; cases h
    | ok labels =>
      rw [hD, exbind_ok] at h
      have hXs : Xs.length = df.length := by
        unfold StandardScaler_fit_transform at hS
        split at hS
        · cases hS
        · have heq := Except.ok.inj hS
          rw [← heq, hstd, List.length_map]
      have hlabeq : labels = dbscanLabels eps ms.toNat Xs := by
        unfold DBSCAN_fit at hD
        split at hD
        · cases hD
        · split at hD
          · cases hD
          · exact (Except.ok.inj hD).symm
      have hlab : labels.length = df.length := by
        rw [hlabeq, dbscanLabels_length, hXs]
      have hlab_ge : ∀ lb ∈ labels, -1 ≤ lb := by
        rw [hlabeq]; exact dbscanLabels_ge eps ms.toNat Xs
      unfold assign at h
      rw [if_pos hlab] at h
      obtain rfl : out = (df.zip labels).map
          (fun p => { p.1 with attrs := setCol p.1.attrs "cluster" p.2 }) :=
        (Except.ok.inj h).symm
      have hlen : ((df.zip labels).map
          (fun p => { p.1 with attrs := setCol p.1.attrs "cluster" p.2 })).length
          = df.length := by
        rw [List.length_map, List.length_zip, hlab, Nat.min_self]
      refine ⟨hlen, ?_⟩
      intro i hi hj
      have hil : i < labels.length := by rw [hlab]; exact hj
      have hiz : i < (df.zip labels).length := by
        rw [List.length_zip, hlab, Nat.min_self]; exact hj
      have hgot : ((df.zip labels).map
          (fun p => { p.1 with attrs := setCol p.1.attrs "cluster" p.2 }))[i]
          = { df[i] with attrs := setCol df[i].attrs "cluster" labels[i] } := by
        rw [List.getElem_map, List.getElem_zip]
      have hset : setCol df[i].attrs "cluster" labels[i]
          = df[i].attrs ++ [("cluster", labels[i])] := by
        unfold setCol
        rw [if_neg]
        intro hcon
        rw [List.any_eq_true] at hcon
        obtain ⟨p, hp, hps⟩ := hcon
        rw [decide_eq_true_eq] at hps
        exact hnc df[i] (List.getElem_mem hj) p hp hps
      rw [hgot, hset]
      refine ⟨rfl, by simp, List.take_left _ _, ?_⟩
      intro q hq hq1
      rcases List.mem_append.mp hq with hq2 | hq2
      · exact absurd hq1 (hnc df[i] (List.getElem_mem hj) q hq2)
      · rw [List.mem_singleton] at hq2
        subst hq2
        exact hlab_ge _ (List.getElem_mem _)

/-- Witness for `cluster_frame_effect` at concrete inputs. -/
theorem cluster_frame_effect_witness :
    cluster_by_centroid centroid0 (fun X => X) df1 (1/100) 10 = .ok out1 ∧
    (out1.length = df1.length ∧
     ∀ i (hi : i < out1.length) (hj : i < df1.length),
       out1[i].boundary = df1[i].boundary ∧
       out1[i].attrs.map Prod.fst = df1[i].attrs.map Prod.fst ++ ["cluster"] ∧
       out1[i].attrs.take df1[i].attrs.length = df1[i].attrs ∧
       ∀ q ∈ out1[i].attrs, q.1 = "cluster" → -1 ≤ q.2) := by
  have h : cluster_by_centroid centroid0 (fun X => X) df1 (1/100) 10 = .ok out1 := by
    with_unfolding_all rfl
  exact ⟨h, cluster_frame_effect centroid0 (fun X => X) df1 out1 (1/100) 10
    (fun X => rfl) (by decide) h⟩

/-- Claim C10: on a table with zero rows `cluster_by_centroid` raises — the
feature standardization rejects an empty sample set — instead of returning
an empty table with a cluster column. -/
theorem cluster_empty_table_raises (centroid : List Point → Point)
    (standardize : List Point → List Point) (eps : ℚ) (ms : ℤ) :
    cluster_by_centroid centroid standardize [] eps ms = .error .emptySamples := rfl

end CompSeg
